import Mathlib

/-!
Verification of the WhatsApp history store (`src/web/history-store.ts`).

The store keeps three sqlite tables (`conversations`, `messages`, `participants`).
We embed the database contents as lists of rows kept in storage (rowid) order,
and each operation of the `WhatsAppHistoryStore` class as a pure function:

* `storeMessageDB` — the three statements run by `storeMessage` (lines 178-231):
  conversation upsert, `INSERT OR REPLACE` of the message row, and
  `INSERT OR IGNORE` of each group participant, in that order.
* `queryMessagesDB` — the `SELECT ... WHERE ... ORDER BY timestamp ASC LIMIT ...`
  built by `queryMessages` (lines 246-282).  The ISO-date parsing performed by
  `new Date(s).getTime()` is abstracted as a parameter `parseDate`, since date
  parsing is done by the JS runtime, not by this repository.
* `exportMessagesDB` — the grouping pass of `exportMessages` (lines 293-334).
* `getStatsDB` — the four aggregate queries of `getStats` (lines 350-368).

Timestamps and the other JS numbers that are only stored and compared are
modelled as `Int`.  The two `REAL` location columns are carried opaquely (the
code never computes with them), so their values are also represented by `Int`.
The raw message payload is kept as the opaque serialized string the code
writes with `JSON.stringify` and never parses back.

The class itself is `WhatsAppHistoryStore`: an optional open handle (`db` is
`none` before `initialize` and after `close`) plus the backing file contents.
-/

/-- Chat kind of a conversation: the string column `chat_type` holds
`"direct"` or `"group"`. -/
inductive ChatType where
  | direct
  | group
deriving DecidableEq

/-- A row of the `messages` table (schema at history-store.ts lines 99-117).
Nullable columns are `Option`; `is_from_me` is the INTEGER 0/1 the code
writes. -/
structure MessageRow where
  message_id : String
  conversation_jid : String
  sender_jid : Option String
  sender_e164 : Option String
  sender_name : Option String
  body : String
  timestamp : Int
  is_from_me : Int
  reply_to_id : Option String
  media_path : Option String
  media_type : Option String
  location_lat : Option Int
  location_lon : Option Int
  raw_message : String
  account_id : String
  created_at : Int
deriving DecidableEq

/-- A row of the `conversations` table (schema at lines 91-97). -/
structure ConversationRow where
  jid : String
  chat_type : ChatType
  display_name : Option String
  last_message_at : Int
  created_at : Int
deriving DecidableEq

/-- A row of the `participants` table (schema at lines 119-125). -/
structure ParticipantRow where
  conversation_jid : String
  participant_jid : String
  participant_e164 : Option String
  joined_at : Int
deriving DecidableEq

/-- The contents of the sqlite database: the three tables, each as a list of
rows in storage (rowid) order. -/
structure DBState where
  conversations : List ConversationRow
  messages : List MessageRow
  participants : List ParticipantRow
deriving DecidableEq

/-- A freshly created database file after schema creation: all tables empty. -/
def emptyDB : DBState := ⟨[], [], []⟩

/-- The parameter record of `storeMessage` (lines 153-171).  TS-optional (`?`)
fields are `Option`; `rawMessage` is the opaque payload serialized into the
`raw_message` column. -/
structure StoreMessageParams where
  messageId : String
  conversationJid : String
  chatType : ChatType
  senderJid : Option String
  senderE164 : Option String
  senderName : Option String
  body : String
  timestamp : Int
  isFromMe : Bool
  replyToId : Option String
  mediaPath : Option String
  mediaType : Option String
  location : Option (Int × Int)
  rawMessage : String
  accountId : String
  displayName : Option String
  groupParticipants : Option (List String)
deriving DecidableEq

/-- The conversation upsert (lines 180-193):
`INSERT INTO conversations ... ON CONFLICT(jid) DO UPDATE SET
display_name = COALESCE(excluded.display_name, display_name),
last_message_at = excluded.last_message_at`.
On conflict the existing row is updated in place (rowid kept); `chat_type`
and `created_at` are not touched by the UPDATE arm. -/
def upsertConversation (convs : List ConversationRow) (p : StoreMessageParams)
    (now : Int) : List ConversationRow :=
  if convs.any (fun c => c.jid == p.conversationJid) then
    convs.map (fun c =>
      if c.jid == p.conversationJid then
        { c with
          display_name :=
            match p.displayName with
            | some d => some d
            | none => c.display_name,
          last_message_at := p.timestamp }
      else c)
  else
    convs ++ [{ jid := p.conversationJid, chat_type := p.chatType,
                display_name := p.displayName, last_message_at := p.timestamp,
                created_at := now }]

/-- The message row written by the `INSERT OR REPLACE` of lines 196-220,
with `now = Date.now()` taken at the start of the call. -/
def mkMessageRow (p : StoreMessageParams) (now : Int) : MessageRow :=
  { message_id := p.messageId
    conversation_jid := p.conversationJid
    sender_jid := p.senderJid
    sender_e164 := p.senderE164
    sender_name := p.senderName
    body := p.body
    timestamp := p.timestamp
    is_from_me := if p.isFromMe then 1 else 0
    reply_to_id := p.replyToId
    media_path := p.mediaPath
    media_type := p.mediaType
    location_lat := p.location.map (fun q => q.1)
    location_lon := p.location.map (fun q => q.2)
    raw_message := p.rawMessage
    account_id := p.accountId
    created_at := now }

/-- The `INSERT OR REPLACE` on the composite primary key
`(conversation_jid, message_id)`: sqlite deletes every row conflicting on the
key and inserts the new row with a fresh rowid, i.e. at the end of storage
order. -/
def insertOrReplaceMessage (msgs : List MessageRow) (r : MessageRow) :
    List MessageRow :=
  msgs.filter
    (fun m => !(m.conversation_jid == r.conversation_jid &&
                m.message_id == r.message_id)) ++ [r]

/-- The `INSERT OR IGNORE INTO participants` statement (lines 224-229): insert only when no
row with the key `(conversation_jid, participant_jid)` exists; the code always
passes `null` for `participant_e164`. -/
def insertOrIgnoreParticipant (parts : List ParticipantRow)
    (cjid pjid : String) (now : Int) : List ParticipantRow :=
  if parts.any (fun q => q.conversation_jid == cjid && q.participant_jid == pjid) then
    parts
  else
    parts ++ [{ conversation_jid := cjid, participant_jid := pjid,
                participant_e164 := none, joined_at := now }]

/-- The participant loop of lines 222-231: runs only when
`chatType === "group"` and a `groupParticipants` list was supplied. -/
def storeParticipants (parts : List ParticipantRow) (p : StoreMessageParams)
    (now : Int) : List ParticipantRow :=
  if p.chatType = ChatType.group then
    match p.groupParticipants with
    | some l =>
        l.foldl (fun acc j => insertOrIgnoreParticipant acc p.conversationJid j now)
          parts
    | none => parts
  else parts

/-- One `storeMessage` call on an open database (lines 176-231).  The source
executes the three statements in this order: conversation upsert, then the
message `INSERT OR REPLACE`, then the participant inserts. -/
def storeMessageDB (db : DBState) (p : StoreMessageParams) (now : Int) : DBState :=
  { conversations := upsertConversation db.conversations p now
    messages := insertOrReplaceMessage db.messages (mkMessageRow p now)
    participants := storeParticipants db.participants p now }

/-- The filter record of `queryMessages` / `exportMessages` (lines 38-44).
`from` is a reserved word in Lean, hence `from_` / `to_`. -/
structure ExportFilter where
  from_ : Option String := none
  to_ : Option String := none
  conversationJid : Option String := none
  accountId : Option String := none
  limit : Option Int := none
deriving DecidableEq

/-- The WHERE clause built at lines 246-271, as a predicate on a row.  Each
condition is pushed only when the filter field is JS-truthy (present and not
the empty string); `from`/`to` strings are converted to epoch milliseconds by
`new Date(s).getTime()`, abstracted here as `parseDate`. -/
def matchesFilter (parseDate : String → Int) (f : ExportFilter)
    (m : MessageRow) : Bool :=
  (match f.from_ with
   | some s => if s = "" then true else decide (parseDate s ≤ m.timestamp)
   | none => true) &&
  (match f.to_ with
   | some s => if s = "" then true else decide (m.timestamp ≤ parseDate s)
   | none => true) &&
  (match f.conversationJid with
   | some j => if j = "" then true else decide (m.conversation_jid = j)
   | none => true) &&
  (match f.accountId with
   | some a => if a = "" then true else decide (m.account_id = a)
   | none => true)

/-- Row comparison used for `ORDER BY timestamp ASC`. -/
def tsLE (a b : MessageRow) : Bool := decide (a.timestamp ≤ b.timestamp)

/-- The LIMIT clause (line 272): attached only when `filter.limit` is
JS-truthy, i.e. nonzero; and sqlite treats a negative `LIMIT` value as
"no limit", so rows are dropped only for a positive limit. -/
def applyLimit (limit : Option Int) (rows : List MessageRow) : List MessageRow :=
  match limit with
  | some n => if n ≤ 0 then rows else rows.take n.toNat
  | none => rows

/-- The `queryMessages` operation on an open database (lines 246-282):
`SELECT * FROM messages WHERE ... ORDER BY timestamp ASC LIMIT ...`.
The sort is modelled as a stable merge sort on the storage order, realising
sqlite's "sorted by timestamp, ties in a stable storage-dependent order". -/
def queryMessagesDB (parseDate : String → Int) (db : DBState)
    (f : ExportFilter) : List MessageRow :=
  applyLimit f.limit
    ((db.messages.filter (matchesFilter parseDate f)).mergeSort tsLE)

/-- One element of an exported group (lines 50-62 / 316-331). -/
structure ExportedMessage where
  messageId : String
  senderJid : Option String
  senderE164 : Option String
  senderName : Option String
  body : String
  timestamp : Int
  isFromMe : Bool
  replyToId : Option String
  mediaPath : Option String
  mediaType : Option String
  location : Option (Int × Int)
deriving DecidableEq

/-- One exported conversation group (lines 46-63). -/
structure ExportedConversation where
  jid : String
  chatType : ChatType
  displayName : Option String
  messages : List ExportedMessage
deriving DecidableEq

/-- The per-message record pushed at lines 316-331.  `isFromMe` is
`Boolean(msg.is_from_me)`; `location` is the pair when both columns are
non-null, else null. -/
def exportedMsgOf (m : MessageRow) : ExportedMessage :=
  { messageId := m.message_id
    senderJid := m.sender_jid
    senderE164 := m.sender_e164
    senderName := m.sender_name
    body := m.body
    timestamp := m.timestamp
    isFromMe := !(m.is_from_me == 0)
    replyToId := m.reply_to_id
    mediaPath := m.media_path
    mediaType := m.media_type
    location :=
      match m.location_lat, m.location_lon with
      | some a, some b => some (a, b)
      | _, _ => none }

/-- One step of the grouping loop of lines 296-332: if a group for the
message's conversation already exists (the `Map.get` hit) the message is
pushed onto it; otherwise the conversation metadata is looked up
(`SELECT chat_type, display_name FROM conversations WHERE jid = ?`, with
`convData?.chat_type ?? "direct"` and `convData?.display_name ?? null`) and a
new group is appended, preserving `Map` insertion order. -/
def addGroup (convs : List ConversationRow) (gs : List ExportedConversation)
    (m : MessageRow) : List ExportedConversation :=
  if gs.any (fun g => g.jid == m.conversation_jid) then
    gs.map (fun g =>
      if g.jid == m.conversation_jid then
        { g with messages := g.messages ++ [exportedMsgOf m] }
      else g)
  else
    gs ++ [{ jid := m.conversation_jid
             chatType :=
               match convs.find? (fun c => c.jid == m.conversation_jid) with
               | some c => c.chat_type
               | none => ChatType.direct
             displayName :=
               match convs.find? (fun c => c.jid == m.conversation_jid) with
               | some c => c.display_name
               | none => none
             messages := [exportedMsgOf m] }]

/-- The `exportMessages` operation on an open database (lines 288-335): run the filtered
query, then fold the flat result into insertion-ordered groups. -/
def exportMessagesDB (parseDate : String → Int) (db : DBState)
    (f : ExportFilter) : List ExportedConversation :=
  (queryMessagesDB parseDate db f).foldl (addGroup db.conversations) []

/-- Aggregate `SELECT MIN(timestamp) FROM messages`: NULL on an empty table, else the
least value. -/
def sqlMin (l : List Int) : Option Int :=
  match l with
  | [] => none
  | t :: ts => some (ts.foldl (fun a b => min a b) t)

/-- Aggregate `SELECT MAX(timestamp) FROM messages`: NULL on an empty table, else the
greatest value. -/
def sqlMax (l : List Int) : Option Int :=
  match l with
  | [] => none
  | t :: ts => some (ts.foldl (fun a b => max a b) t)

/-- The result record of `getStats` (lines 340-345). -/
structure Stats where
  totalMessages : Nat
  totalConversations : Nat
  oldestMessage : Option Int
  newestMessage : Option Int
deriving DecidableEq

/-- The `getStats` operation on an open database (lines 350-368): two `COUNT(*)` queries and
the MIN/MAX aggregates over `messages.timestamp`. -/
def getStatsDB (db : DBState) : Stats :=
  { totalMessages := db.messages.length
    totalConversations := db.conversations.length
    oldestMessage := sqlMin (db.messages.map (fun m => m.timestamp))
    newestMessage := sqlMax (db.messages.map (fun m => m.timestamp)) }

/-- Errors surfaced by the store: the `"Database not initialized"` throw. -/
inductive StoreError where
  | notInitialized
deriving DecidableEq

/-- The `WhatsAppHistoryStore` class (line 65): `db` is the open handle,
`null` (`none`) before `initialize` and after `close`; `file` is the contents
of the backing sqlite file, which survives `close`. -/
structure WhatsAppHistoryStore where
  db : Option DBState
  file : DBState
deriving DecidableEq

/-- A store object constructed on a path whose file does not exist yet
(the constructor, lines 69-72, opens nothing). -/
def freshStore : WhatsAppHistoryStore := ⟨none, emptyDB⟩

/-- Lifecycle `initialize` (lines 77-138): a no-op when already open; otherwise opens
the backing file (the existence-checked schema creation keeps any prior
contents). -/
def initializeStore (s : WhatsAppHistoryStore) : WhatsAppHistoryStore :=
  match s.db with
  | some _ => s
  | none => { s with db := some s.file }

/-- Lifecycle `close` (lines 143-148): releases the handle; a second call is a no-op. -/
def closeStore (s : WhatsAppHistoryStore) : WhatsAppHistoryStore :=
  match s.db with
  | some d => { db := none, file := d }
  | none => s

/-- Operation `storeMessage` at the class level (lines 153-236): throws
`NotInitialized` when the handle is closed (the state untouched), otherwise
runs the three statements. -/
def storeMessage (s : WhatsAppHistoryStore) (p : StoreMessageParams)
    (now : Int) : Except StoreError Unit × WhatsAppHistoryStore :=
  match s.db with
  | none => (Except.error StoreError.notInitialized, s)
  | some d =>
      let d2 := storeMessageDB d p now
      (Except.ok (), { db := some d2, file := d2 })

/-- Operation `queryMessages` at the class level (lines 241-283). -/
def queryMessages (parseDate : String → Int) (s : WhatsAppHistoryStore)
    (f : ExportFilter) : Except StoreError (List MessageRow) × WhatsAppHistoryStore :=
  match s.db with
  | none => (Except.error StoreError.notInitialized, s)
  | some d => (Except.ok (queryMessagesDB parseDate d f), s)

/-- Operation `exportMessages` at the class level (lines 288-335). -/
def exportMessages (parseDate : String → Int) (s : WhatsAppHistoryStore)
    (f : ExportFilter) :
    Except StoreError (List ExportedConversation) × WhatsAppHistoryStore :=
  match s.db with
  | none => (Except.error StoreError.notInitialized, s)
  | some d => (Except.ok (exportMessagesDB parseDate d f), s)

/-- Operation `getStats` at the class level (lines 340-369). -/
def getStats (s : WhatsAppHistoryStore) :
    Except StoreError Stats × WhatsAppHistoryStore :=
  match s.db with
  | none => (Except.error StoreError.notInitialized, s)
  | some d => (Except.ok (getStatsDB d), s)

/-! ## Helpers for the claims -/

/-- The rows of a message list holding a given composite key
`(conversation_jid, message_id)`. -/
def messagesForKey (msgs : List MessageRow) (cjid mid : String) : List MessageRow :=
  msgs.filter (fun m => m.conversation_jid == cjid && m.message_id == mid)

/-- After an `INSERT OR REPLACE`, the inserted row is the only row with its
composite key. -/
theorem messagesForKey_insertOrReplace (msgs : List MessageRow) (r : MessageRow) :
    messagesForKey (insertOrReplaceMessage msgs r) r.conversation_jid r.message_id = [r] := by
  simp [messagesForKey, insertOrReplaceMessage, List.filter_filter]

/-- A concrete `storeMessage` argument used to instantiate theorems. -/
def exParams1 : StoreMessageParams :=
  { messageId := "m1", conversationJid := "chat-a", chatType := ChatType.direct,
    senderJid := some "s1", senderE164 := some "+15550001", senderName := some "Alice",
    body := "first", timestamp := 10, isFromMe := false, replyToId := none,
    mediaPath := none, mediaType := none, location := none,
    rawMessage := "raw-one", accountId := "acct", displayName := none,
    groupParticipants := none }

/-- A second concrete argument with the same composite key as `exParams1` but
different field values. -/
def exParams2 : StoreMessageParams :=
  { exParams1 with
    body := "second"
    senderName := none
    timestamp := 20
    isFromMe := true
    rawMessage := "raw-two"
    displayName := some "Chat A" }

/-! ## Claim C1 -/

/-- Claim C1: after calling `storeMessage` twice with the same
`(conversationJid, messageId)` composite key, the messages table contains
exactly one row for that key, and that row is exactly the row written by the
second call (`mkMessageRow p2 n2`): full replacement, no merge of fields. -/
theorem claim1_double_store_replaces (db : DBState) (p1 p2 : StoreMessageParams)
    (n1 n2 : Int) (hc : p1.conversationJid = p2.conversationJid)
    (hm : p1.messageId = p2.messageId) :
    messagesForKey (storeMessageDB (storeMessageDB db p1 n1) p2 n2).messages
      p2.conversationJid p2.messageId = [mkMessageRow p2 n2] :=
  messagesForKey_insertOrReplace
    (insertOrReplaceMessage db.messages (mkMessageRow p1 n1)) (mkMessageRow p2 n2)

/-- Witness for C1 at a concrete pair of calls sharing the key
`("chat-a", "m1")`. -/
theorem claim1_double_store_replaces_witness :
    exParams1.conversationJid = exParams2.conversationJid ∧
    exParams1.messageId = exParams2.messageId ∧
    messagesForKey (storeMessageDB (storeMessageDB emptyDB exParams1 5) exParams2 7).messages
      exParams2.conversationJid exParams2.messageId = [mkMessageRow exParams2 7] :=
  ⟨rfl, rfl, claim1_double_store_replaces emptyDB exParams1 exParams2 5 7 rfl rfl⟩

/-! ## Claim C7 -/

/-- Claim C7: ingesting one message into a freshly initialized store and
querying with no filter returns exactly one row, and every field of that row
round-trips from the ingested record (optional fields null where absent). -/
theorem claim7_single_ingest_roundtrip (p : StoreMessageParams) (now : Int)
    (pd : String → Int) :
    (storeMessage (initializeStore freshStore) p now).1 = Except.ok () ∧
    (queryMessages pd (storeMessage (initializeStore freshStore) p now).2 {}).1 =
      Except.ok [mkMessageRow p now] ∧
    (mkMessageRow p now).message_id = p.messageId ∧
    (mkMessageRow p now).conversation_jid = p.conversationJid ∧
    (mkMessageRow p now).sender_jid = p.senderJid ∧
    (mkMessageRow p now).sender_e164 = p.senderE164 ∧
    (mkMessageRow p now).sender_name = p.senderName ∧
    (mkMessageRow p now).body = p.body ∧
    (mkMessageRow p now).timestamp = p.timestamp ∧
    (mkMessageRow p now).is_from_me = (if p.isFromMe then 1 else 0) ∧
    (mkMessageRow p now).reply_to_id = p.replyToId ∧
    (mkMessageRow p now).media_path = p.mediaPath ∧
    (mkMessageRow p now).media_type = p.mediaType ∧
    (mkMessageRow p now).location_lat = p.location.map (fun q => q.1) ∧
    (mkMessageRow p now).location_lon = p.location.map (fun q => q.2) ∧
    (mkMessageRow p now).raw_message = p.rawMessage ∧
    (mkMessageRow p now).account_id = p.accountId ∧
    (mkMessageRow p now).created_at = now := by
  refine ⟨rfl, ?_, rfl, rfl, rfl, rfl, rfl, rfl, rfl, rfl, rfl, rfl, rfl, rfl,
    rfl, rfl, rfl, rfl⟩
  simp [storeMessage, initializeStore, freshStore, queryMessages, emptyDB,
    storeMessageDB, insertOrReplaceMessage, queryMessagesDB, matchesFilter,
    applyLimit]

/-! ## Claim C10 -/

/-- Claim C10: `queryMessages` treats JS-falsy filter values as absent: an
empty-string `from` or `to` imposes no timestamp bound, and `limit: 0` imposes
no row limit (all matching rows are returned, not zero rows). -/
theorem claim10_falsy_filter_values_absent (pd : String → Int) (db : DBState)
    (f : ExportFilter) :
    queryMessagesDB pd db { f with from_ := some "" } =
      queryMessagesDB pd db { f with from_ := none } ∧
    queryMessagesDB pd db { f with to_ := some "" } =
      queryMessagesDB pd db { f with to_ := none } ∧
    queryMessagesDB pd db { f with limit := some 0 } =
      queryMessagesDB pd db { f with limit := none } := by
  have hfrom : matchesFilter pd { f with from_ := some "" } =
      matchesFilter pd { f with from_ := none } := by
    funext m
    simp [matchesFilter]
  have hto : matchesFilter pd { f with to_ := some "" } =
      matchesFilter pd { f with to_ := none } := by
    funext m
    simp [matchesFilter]
  have hlim : matchesFilter pd { f with limit := some 0 } =
      matchesFilter pd { f with limit := none } := rfl
  refine ⟨?_, ?_, ?_⟩ <;>
    simp [queryMessagesDB, applyLimit, hfrom, hto, hlim]

/-! ## Claim C8 -/

/-- The running `min` fold lands on the seed or on a list element. -/
theorem foldl_min_mem (ts : List Int) (t : Int) :
    ts.foldl (fun a b => min a b) t = t ∨ ts.foldl (fun a b => min a b) t ∈ ts := by
  induction ts generalizing t with
  | nil => exact Or.inl rfl
  | cons a l ih =>
      rcases ih (min t a) with h | h
      · rw [List.foldl_cons, h]
        rcases min_choice t a with h2 | h2
        · exact Or.inl h2
        · exact Or.inr (by rw [h2]; exact List.mem_cons_self a l)
      · exact Or.inr (List.mem_cons_of_mem a h)

/-- The running `min` fold is a lower bound of the seed and of every element. -/
theorem foldl_min_le (ts : List Int) (t : Int) :
    ts.foldl (fun a b => min a b) t ≤ t ∧
      ∀ u ∈ ts, ts.foldl (fun a b => min a b) t ≤ u := by
  induction ts generalizing t with
  | nil => exact ⟨le_refl t, by simp⟩
  | cons a l ih =>
      obtain ⟨h1, h2⟩ := ih (min t a)
      refine ⟨le_trans h1 (min_le_left t a), ?_⟩
      intro u hu
      rcases List.mem_cons.mp hu with rfl | hu
      · exact le_trans h1 (min_le_right t u)
      · exact h2 u hu

/-- The running `max` fold lands on the seed or on a list element. -/
theorem foldl_max_mem (ts : List Int) (t : Int) :
    ts.foldl (fun a b => max a b) t = t ∨ ts.foldl (fun a b => max a b) t ∈ ts := by
  induction ts generalizing t with
  | nil => exact Or.inl rfl
  | cons a l ih =>
      rcases ih (max t a) with h | h
      · rw [List.foldl_cons, h]
        rcases max_choice t a with h2 | h2
        · exact Or.inl h2
        · exact Or.inr (by rw [h2]; exact List.mem_cons_self a l)
      · exact Or.inr (List.mem_cons_of_mem a h)

/-- The running `max` fold is an upper bound of the seed and of every element. -/
theorem foldl_max_ge (ts : List Int) (t : Int) :
    t ≤ ts.foldl (fun a b => max a b) t ∧
      ∀ u ∈ ts, u ≤ ts.foldl (fun a b => max a b) t := by
  induction ts generalizing t with
  | nil => exact ⟨le_refl t, by simp⟩
  | cons a l ih =>
      obtain ⟨h1, h2⟩ := ih (max t a)
      refine ⟨le_trans (le_max_left t a) h1, ?_⟩
      intro u hu
      rcases List.mem_cons.mp hu with rfl | hu
      · exact le_trans (le_max_right t u) h1
      · exact h2 u hu

/-- Aggregate `MIN` is NULL exactly on an empty table. -/
theorem sqlMin_eq_none_iff (l : List Int) : sqlMin l = none ↔ l = [] := by
  cases l <;> simp [sqlMin]

/-- Aggregate `MAX` is NULL exactly on an empty table. -/
theorem sqlMax_eq_none_iff (l : List Int) : sqlMax l = none ↔ l = [] := by
  cases l <;> simp [sqlMax]

/-- A non-NULL `MIN` is an element and a lower bound. -/
theorem sqlMin_spec (l : List Int) (t : Int) (h : sqlMin l = some t) :
    t ∈ l ∧ ∀ u ∈ l, t ≤ u := by
  cases l with
  | nil => simp [sqlMin] at h
  | cons a ts =>
      simp only [sqlMin, Option.some.injEq] at h
      subst h
      obtain ⟨h1, h2⟩ := foldl_min_le ts a
      constructor
      · rcases foldl_min_mem ts a with h | h
        · rw [h]; exact List.mem_cons_self a ts
        · exact List.mem_cons_of_mem a h
      · intro u hu
        rcases List.mem_cons.mp hu with rfl | hu
        · exact h1
        · exact h2 u hu

/-- A non-NULL `MAX` is an element and an upper bound. -/
theorem sqlMax_spec (l : List Int) (t : Int) (h : sqlMax l = some t) :
    t ∈ l ∧ ∀ u ∈ l, u ≤ t := by
  cases l with
  | nil => simp [sqlMax] at h
  | cons a ts =>
      simp only [sqlMax, Option.some.injEq] at h
      subst h
      obtain ⟨h1, h2⟩ := foldl_max_ge ts a
      constructor
      · rcases foldl_max_mem ts a with h | h
        · rw [h]; exact List.mem_cons_self a ts
        · exact List.mem_cons_of_mem a h
      · intro u hu
        rcases List.mem_cons.mp hu with rfl | hu
        · exact h1
        · exact h2 u hu

/-- Claim C8: `getStats` returns the number of message rows, the number of
conversation rows, and the minimum / maximum message timestamp, both NULL on
a store without messages; on the empty store everything is zero / NULL. -/
theorem claim8_getStats_aggregates (db : DBState) :
    (getStatsDB db).totalMessages = db.messages.length ∧
    (getStatsDB db).totalConversations = db.conversations.length ∧
    ((getStatsDB db).oldestMessage = none ↔ db.messages = []) ∧
    ((getStatsDB db).newestMessage = none ↔ db.messages = []) ∧
    (∀ t, (getStatsDB db).oldestMessage = some t →
      t ∈ db.messages.map (fun m => m.timestamp) ∧
        ∀ u ∈ db.messages.map (fun m => m.timestamp), t ≤ u) ∧
    (∀ t, (getStatsDB db).newestMessage = some t →
      t ∈ db.messages.map (fun m => m.timestamp) ∧
        ∀ u ∈ db.messages.map (fun m => m.timestamp), u ≤ t) ∧
    getStatsDB emptyDB =
      { totalMessages := 0, totalConversations := 0,
        oldestMessage := none, newestMessage := none } := by
  refine ⟨rfl, rfl, ?_, ?_, ?_, ?_, rfl⟩
  · rw [show (getStatsDB db).oldestMessage = sqlMin (db.messages.map (fun m => m.timestamp)) from rfl,
      sqlMin_eq_none_iff]
    simp
  · rw [show (getStatsDB db).newestMessage = sqlMax (db.messages.map (fun m => m.timestamp)) from rfl,
      sqlMax_eq_none_iff]
    simp
  · intro t ht
    exact sqlMin_spec _ t ht
  · intro t ht
    exact sqlMax_spec _ t ht

/-- Witness for C8: on the store holding the single message `exParams1`
(timestamp 10), the `MIN` aggregate is 10, an element and lower bound. -/
theorem claim8_getStats_aggregates_witness :
    (10 : Int) ∈ (storeMessageDB emptyDB exParams1 5).messages.map (fun m => m.timestamp) ∧
      ∀ u ∈ (storeMessageDB emptyDB exParams1 5).messages.map (fun m => m.timestamp),
        (10 : Int) ≤ u :=
  (claim8_getStats_aggregates (storeMessageDB emptyDB exParams1 5)).2.2.2.2.1 10 rfl

/-! ## Claim C9 -/

/-- Claim C9: every read/write operation returns the `NotInitialized` error
when invoked on a closed handle (before `initialize`, or after `close`, both
of which leave the handle `none`), and the store state is unchanged. -/
theorem claim9_not_initialized (s t : WhatsAppHistoryStore) (h : s.db = none)
    (p : StoreMessageParams) (now : Int) (pd : String → Int) (f : ExportFilter) :
    storeMessage s p now = (Except.error StoreError.notInitialized, s) ∧
    queryMessages pd s f = (Except.error StoreError.notInitialized, s) ∧
    exportMessages pd s f = (Except.error StoreError.notInitialized, s) ∧
    getStats s = (Except.error StoreError.notInitialized, s) ∧
    freshStore.db = none ∧
    (closeStore t).db = none := by
  refine ⟨?_, ?_, ?_, ?_, rfl, ?_⟩
  · simp [storeMessage, h]
  · simp [queryMessages, h]
  · simp [exportMessages, h]
  · simp [getStats, h]
  · cases ht : t.db <;> simp [closeStore, ht]

/-- Witness for C9 on a never-initialized store. -/
theorem claim9_not_initialized_witness :
    storeMessage freshStore exParams1 0 =
      (Except.error StoreError.notInitialized, freshStore) ∧
    queryMessages (fun _ => 0) freshStore {} =
      (Except.error StoreError.notInitialized, freshStore) ∧
    exportMessages (fun _ => 0) freshStore {} =
      (Except.error StoreError.notInitialized, freshStore) ∧
    getStats freshStore = (Except.error StoreError.notInitialized, freshStore) ∧
    freshStore.db = none ∧
    (closeStore freshStore).db = none :=
  claim9_not_initialized freshStore freshStore rfl exParams1 0 (fun _ => 0) {}

/-! ## Claim C5 -/

/-- Referential integrity: every message row references an existing
conversation row. -/
def refIntegrity (db : DBState) : Prop :=
  ∀ m ∈ db.messages, ∃ c ∈ db.conversations, c.jid = m.conversation_jid

/-- The upsert keeps a row for every jid that already had one. -/
theorem exists_jid_in_upsert (convs : List ConversationRow)
    (p : StoreMessageParams) (now : Int) (j : String)
    (h : ∃ c ∈ convs, c.jid = j) :
    ∃ c ∈ upsertConversation convs p now, c.jid = j := by
  obtain ⟨c, hc, hj⟩ := h
  unfold upsertConversation
  by_cases hany : convs.any (fun x => x.jid == p.conversationJid) = true
  · rw [if_pos hany]
    refine ⟨_, List.mem_map_of_mem _ hc, ?_⟩
    by_cases hcj : (c.jid == p.conversationJid) = true
    · simp only [hcj, if_true]
      exact hj
    · simp only [hcj, if_false]
      exact hj
  · rw [if_neg hany]
    exact ⟨c, List.mem_append_left _ hc, hj⟩

/-- After the upsert, some conversation row carries the upserted jid. -/
theorem upsert_contains_param_jid (convs : List ConversationRow)
    (p : StoreMessageParams) (now : Int) :
    ∃ c ∈ upsertConversation convs p now, c.jid = p.conversationJid := by
  unfold upsertConversation
  by_cases hany : convs.any (fun x => x.jid == p.conversationJid) = true
  · rw [if_pos hany]
    obtain ⟨c, hc, hcj⟩ := List.any_eq_true.mp hany
    refine ⟨_, List.mem_map_of_mem _ hc, ?_⟩
    simp only [hcj, if_true]
    exact (beq_iff_eq.mp hcj : c.jid = p.conversationJid)
  · rw [if_neg hany]
    exact ⟨_, List.mem_append_right _ (List.mem_singleton_self _), rfl⟩

/-- Claim C5: within one `storeMessage` call the conversation upsert happens
before the message insert; consequently referential integrity (every message
row has a matching conversation row) is preserved by each call and holds for
every store reachable by a sequence of calls from an empty store. -/
theorem claim5_conversation_upserted_before_message :
    (∀ (db : DBState) (p : StoreMessageParams) (now : Int),
       refIntegrity db → refIntegrity (storeMessageDB db p now)) ∧
    (∀ calls : List (StoreMessageParams × Int),
       refIntegrity (calls.foldl (fun d q => storeMessageDB d q.1 q.2) emptyDB)) := by
  have step : ∀ (db : DBState) (p : StoreMessageParams) (now : Int),
      refIntegrity db → refIntegrity (storeMessageDB db p now) := by
    intro db p now hdb m hm
    have hm2 : m ∈ insertOrReplaceMessage db.messages (mkMessageRow p now) := hm
    rcases List.mem_append.mp hm2 with hm3 | hm3
    · have hmem : m ∈ db.messages := List.mem_of_mem_filter hm3
      exact exists_jid_in_upsert db.conversations p now m.conversation_jid (hdb m hmem)
    · have heq : m = mkMessageRow p now := List.mem_singleton.mp hm3
      subst heq
      exact upsert_contains_param_jid db.conversations p now
  refine ⟨step, ?_⟩
  have gen : ∀ (calls : List (StoreMessageParams × Int)) (d : DBState),
      refIntegrity d →
      refIntegrity (calls.foldl (fun d q => storeMessageDB d q.1 q.2) d) := by
    intro calls
    induction calls with
    | nil => intro d hd; exact hd
    | cons q l ih => intro d hd; exact ih _ (step d q.1 q.2 hd)
  intro calls
  refine gen calls emptyDB ?_
  intro m hm
  simp [emptyDB] at hm

/-- Witness for C5 at one concrete call on the empty store. -/
theorem claim5_conversation_upserted_before_message_witness :
    refIntegrity (storeMessageDB emptyDB exParams1 5) ∧
    refIntegrity ([((exParams1 : StoreMessageParams), (5 : Int))].foldl
      (fun d q => storeMessageDB d q.1 q.2) emptyDB) :=
  ⟨claim5_conversation_upserted_before_message.1 emptyDB exParams1 5
      (by intro m hm; simp [emptyDB] at hm),
    claim5_conversation_upserted_before_message.2 [(exParams1, 5)]⟩

/-! ## Claim C6 -/

/-- A participant key `(conversation_jid, participant_jid)` occurs in the
table. -/
def participantKeyPresent (parts : List ParticipantRow) (c j : String) : Bool :=
  parts.any (fun q => q.conversation_jid == c && q.participant_jid == j)

/-- The rows of the participants table holding a given key. -/
def participantRowsFor (parts : List ParticipantRow) (c j : String) :
    List ParticipantRow :=
  parts.filter (fun q => q.conversation_jid == c && q.participant_jid == j)

/-- An `INSERT OR IGNORE` never touches the rows of a key that is already
present, and keeps that key present. -/
theorem insertIgnore_preserves_present_rows (parts : List ParticipantRow)
    (c j cjid pjid : String) (now : Int)
    (h : participantKeyPresent parts c j = true) :
    participantRowsFor (insertOrIgnoreParticipant parts cjid pjid now) c j =
      participantRowsFor parts c j ∧
    participantKeyPresent (insertOrIgnoreParticipant parts cjid pjid now) c j = true := by
  unfold insertOrIgnoreParticipant
  by_cases hany :
      parts.any (fun q => q.conversation_jid == cjid && q.participant_jid == pjid) = true
  · rw [if_pos hany]
    exact ⟨rfl, h⟩
  · rw [if_neg hany]
    have hne : ¬(cjid = c ∧ pjid = j) := by
      rintro ⟨rfl, rfl⟩
      exact hany h
    have hb : ((cjid == c) && (pjid == j)) = false := by
      by_cases h1 : cjid = c
      · by_cases h2 : pjid = j
        · exact absurd ⟨h1, h2⟩ hne
        · simp [h2]
      · simp [h1]
    constructor
    · unfold participantRowsFor
      rw [List.filter_append]
      simp [hb]
    · unfold participantKeyPresent at h ⊢
      rw [List.any_append]
      simp [h]

/-- An `INSERT OR IGNORE` leaves its own key present (whether it inserted or
was ignored). -/
theorem insertIgnore_makes_present (parts : List ParticipantRow)
    (cjid pjid : String) (now : Int) :
    participantKeyPresent (insertOrIgnoreParticipant parts cjid pjid now)
      cjid pjid = true := by
  unfold insertOrIgnoreParticipant participantKeyPresent
  by_cases hany :
      parts.any (fun q => q.conversation_jid == cjid && q.participant_jid == pjid) = true
  · rw [if_pos hany]
    exact hany
  · rw [if_neg hany]
    simp [List.any_append]

/-- An `INSERT OR IGNORE` keeps every present key present. -/
theorem insertIgnore_present_mono (parts : List ParticipantRow)
    (c j cjid pjid : String) (now : Int)
    (h : participantKeyPresent parts c j = true) :
    participantKeyPresent (insertOrIgnoreParticipant parts cjid pjid now) c j = true := by
  unfold insertOrIgnoreParticipant
  by_cases hany :
      parts.any (fun q => q.conversation_jid == cjid && q.participant_jid == pjid) = true
  · rw [if_pos hany]
    exact h
  · rw [if_neg hany]
    unfold participantKeyPresent at h ⊢
    rw [List.any_append]
    simp [h]

/-- The participant loop never touches the rows of a key that was already
present before the call. -/
theorem participant_fold_preserves_present_rows (l : List String)
    (parts : List ParticipantRow) (c j cj : String) (now : Int)
    (h : participantKeyPresent parts c j = true) :
    participantRowsFor
        (l.foldl (fun acc x => insertOrIgnoreParticipant acc cj x now) parts) c j =
      participantRowsFor parts c j ∧
    participantKeyPresent
        (l.foldl (fun acc x => insertOrIgnoreParticipant acc cj x now) parts) c j = true := by
  induction l generalizing parts with
  | nil => exact ⟨rfl, h⟩
  | cons a t ih =>
      obtain ⟨h1, h2⟩ := insertIgnore_preserves_present_rows parts c j cj a now h
      obtain ⟨h3, h4⟩ := ih _ h2
      exact ⟨h3.trans h1, h4⟩

/-- The participant loop keeps every present key present. -/
theorem participant_fold_present_mono (l : List String)
    (parts : List ParticipantRow) (c j cj : String) (now : Int)
    (h : participantKeyPresent parts c j = true) :
    participantKeyPresent
      (l.foldl (fun acc x => insertOrIgnoreParticipant acc cj x now) parts) c j = true := by
  induction l generalizing parts with
  | nil => exact h
  | cons a t ih => exact ih _ (insertIgnore_present_mono parts c j cj a now h)

/-- After the participant loop every supplied participant key is present. -/
theorem participant_fold_mem_present (l : List String)
    (parts : List ParticipantRow) (cj : String) (now : Int) :
    ∀ j ∈ l,
      participantKeyPresent
        (l.foldl (fun acc x => insertOrIgnoreParticipant acc cj x now) parts) cj j = true := by
  induction l generalizing parts with
  | nil => intro j hj; simp at hj
  | cons a t ih =>
      intro j hj
      rcases List.mem_cons.mp hj with rfl | hj
      · exact participant_fold_present_mono t _ cj j cj now
          (insertIgnore_makes_present parts cj j now)
      · exact ih _ j hj

/-- Claim C6: participant insertion is first-write-wins.  When the chat is a
group with a supplied participant list, each `(conversationJid, participantJid)`
pair is inserted with insert-or-ignore semantics (pairs already present keep
exactly their prior rows, and every supplied pair is present afterwards); for a
direct chat or without a supplied list, the participants table is untouched. -/
theorem claim6_participants_first_write_wins (db : DBState)
    (p : StoreMessageParams) (now : Int) :
    ((p.chatType = ChatType.direct ∨ p.groupParticipants = none) →
       (storeMessageDB db p now).participants = db.participants) ∧
    (∀ c j, participantKeyPresent db.participants c j = true →
       participantRowsFor (storeMessageDB db p now).participants c j =
         participantRowsFor db.participants c j) ∧
    (∀ l, p.chatType = ChatType.group → p.groupParticipants = some l →
       ∀ j ∈ l,
         participantKeyPresent (storeMessageDB db p now).participants
           p.conversationJid j = true) := by
  refine ⟨?_, ?_, ?_⟩
  · rintro (h | h) <;> simp [storeMessageDB, storeParticipants, h]
  · intro c j h
    by_cases hg : p.chatType = ChatType.group
    · cases hgp : p.groupParticipants with
      | none => simp [storeMessageDB, storeParticipants, hg, hgp]
      | some l =>
          have := (participant_fold_preserves_present_rows l db.participants c j
            p.conversationJid now h).1
          simpa [storeMessageDB, storeParticipants, hg, hgp] using this
    · simp [storeMessageDB, storeParticipants, hg]
  · intro l hg hgp j hj
    have := participant_fold_mem_present l db.participants p.conversationJid now j hj
    simpa [storeMessageDB, storeParticipants, hg, hgp] using this

/-- A concrete group-chat call with participants (including a duplicate). -/
def exGroupParams : StoreMessageParams :=
  { exParams1 with
    conversationJid := "group-1"
    chatType := ChatType.group
    groupParticipants := some ["p1", "p2", "p1"] }

/-- Witness for C6: a direct-chat call leaves participants untouched; after a
group call the supplied pairs are present, and a key present before a second
call keeps exactly its rows. -/
theorem claim6_participants_first_write_wins_witness :
    (storeMessageDB emptyDB exParams1 5).participants = emptyDB.participants ∧
    participantKeyPresent (storeMessageDB emptyDB exGroupParams 5).participants
      "group-1" "p2" = true ∧
    participantRowsFor
        (storeMessageDB (storeMessageDB emptyDB exGroupParams 5) exGroupParams 7).participants
        "group-1" "p1" =
      participantRowsFor (storeMessageDB emptyDB exGroupParams 5).participants
        "group-1" "p1" :=
  ⟨(claim6_participants_first_write_wins emptyDB exParams1 5).1 (Or.inl rfl),
    (claim6_participants_first_write_wins emptyDB exGroupParams 5).2.2
      ["p1", "p2", "p1"] rfl rfl "p2" (by simp),
    (claim6_participants_first_write_wins (storeMessageDB emptyDB exGroupParams 5)
      exGroupParams 7).2.1 "group-1" "p1" (by decide)⟩

/-! ## Claim C2 -/

/-- The most recent non-null display name in a sequence of supplied values
(`COALESCE(excluded.display_name, display_name)` iterated from NULL). -/
def lastSuppliedDisplayName (l : List (Option String)) : Option String :=
  l.foldl (fun acc d => match d with | some v => some v | none => acc) none

/-- Matching an option against itself returns it unchanged. -/
theorem option_match_self (o : Option String) :
    (match o with | some v => some v | none => none) = o := by
  cases o <;> rfl

/-- The `getLast?` of a nonempty list is the left fold that keeps the newest
element. -/
theorem getLast_eq_foldl_keep (l : List Int) (t : Int) :
    (t :: l).getLast? = some (l.foldl (fun _ b => b) t) := by
  induction l generalizing t with
  | nil => rfl
  | cons a s ih => rw [List.getLast?_cons_cons, ih a, List.foldl_cons]

/-- The `conversations` component of a fold of `storeMessage` calls is the
fold of the conversation upserts. -/
theorem conversations_foldl_store (ps : List (StoreMessageParams × Int))
    (d : DBState) :
    (ps.foldl (fun d q => storeMessageDB d q.1 q.2) d).conversations =
      ps.foldl (fun cs q => upsertConversation cs q.1 q.2) d.conversations := by
  induction ps generalizing d with
  | nil => rfl
  | cons q t ih =>
      rw [List.foldl_cons, List.foldl_cons]
      exact ih _

/-- Folding upserts that all target the jid of the unique existing row keeps
exactly that row, with coalesced display name and last-write timestamp. -/
theorem upsert_fold_single (ps : List (StoreMessageParams × Int)) :
    ∀ c : ConversationRow, (∀ q ∈ ps, q.1.conversationJid = c.jid) →
      ps.foldl (fun cs q => upsertConversation cs q.1 q.2) [c] =
        [{ c with
            display_name := ps.foldl
              (fun a q => match q.1.displayName with | some v => some v | none => a)
              c.display_name,
            last_message_at :=
              ps.foldl (fun _ q => q.1.timestamp) c.last_message_at }] := by
  induction ps with
  | nil => intro c _; rfl
  | cons q t ih =>
      intro c hall
      have hjid : q.1.conversationJid = c.jid := hall q (List.mem_cons_self q t)
      have hb : (c.jid == q.1.conversationJid) = true := by simp [hjid]
      have hups : upsertConversation [c] q.1 q.2 =
          [{ c with
              display_name :=
                match q.1.displayName with
                | some v => some v
                | none => c.display_name,
              last_message_at := q.1.timestamp }] := by
        unfold upsertConversation
        simp only [List.any_cons, List.any_nil, hb, Bool.or_false, if_true,
          List.map_cons, List.map_nil, if_pos hb]
      rw [List.foldl_cons, List.foldl_cons, List.foldl_cons, hups]
      have htail : ∀ r ∈ t, r.1.conversationJid =
          ({ c with
              display_name :=
                match q.1.displayName with
                | some v => some v
                | none => c.display_name,
              last_message_at := q.1.timestamp } : ConversationRow).jid := by
        intro r hr
        have h1 := hall r (List.mem_cons_of_mem q hr)
        rw [h1]
      rw [ih _ htail]

/-- Claim C2: a sequence of `storeMessage` calls all targeting the same
`conversationJid`, starting from an empty store, leaves exactly one
conversation row; its `display_name` is the most recent non-null supplied
`displayName` (null never overwrites), and its `last_message_at` is the
timestamp of the last-ingested message, whatever the timestamp order. -/
theorem claim2_single_conversation_row (ps : List (StoreMessageParams × Int))
    (j : String) (hne : ps ≠ [])
    (hall : ∀ q ∈ ps, q.1.conversationJid = j) :
    ∃ c : ConversationRow,
      (ps.foldl (fun d q => storeMessageDB d q.1 q.2) emptyDB).conversations = [c] ∧
      c.jid = j ∧
      c.display_name = lastSuppliedDisplayName (ps.map (fun q => q.1.displayName)) ∧
      (ps.map (fun q => q.1.timestamp)).getLast? = some c.last_message_at := by
  cases ps with
  | nil => exact absurd rfl hne
  | cons q t =>
      have hj : q.1.conversationJid = j := hall q (List.mem_cons_self q t)
      have htail : ∀ r ∈ t, r.1.conversationJid =
          (ConversationRow.mk q.1.conversationJid q.1.chatType q.1.displayName
            q.1.timestamp q.2).jid := by
        intro r hr
        have h1 := hall r (List.mem_cons_of_mem q hr)
        rw [h1]
        exact hj.symm
      refine ⟨{ jid := q.1.conversationJid, chat_type := q.1.chatType,
                display_name := t.foldl
                  (fun a r => match r.1.displayName with | some v => some v | none => a)
                  q.1.displayName,
                last_message_at := t.foldl (fun _ r => r.1.timestamp) q.1.timestamp,
                created_at := q.2 }, ?_, ?_, ?_, ?_⟩
      · rw [conversations_foldl_store, List.foldl_cons]
        exact upsert_fold_single t
          (ConversationRow.mk q.1.conversationJid q.1.chatType q.1.displayName
            q.1.timestamp q.2) htail
      · exact hj
      · simp only [lastSuppliedDisplayName, List.map_cons, List.foldl_cons,
          List.foldl_map, option_match_self]
      · rw [List.map_cons, getLast_eq_foldl_keep, List.foldl_map]

/-- Witness for C2 on two concrete calls into conversation `"chat-a"`:
only the second supplies a display name, and its timestamp (20) wins. -/
theorem claim2_single_conversation_row_witness :
    ∃ c : ConversationRow,
      ([((exParams1 : StoreMessageParams), (5 : Int)), (exParams2, 7)].foldl
        (fun d q => storeMessageDB d q.1 q.2) emptyDB).conversations = [c] ∧
      c.jid = "chat-a" ∧
      c.display_name = lastSuppliedDisplayName
        ([((exParams1 : StoreMessageParams), (5 : Int)), (exParams2, 7)].map
          (fun q => q.1.displayName)) ∧
      ([((exParams1 : StoreMessageParams), (5 : Int)), (exParams2, 7)].map
        (fun q => q.1.timestamp)).getLast? = some c.last_message_at :=
  claim2_single_conversation_row [(exParams1, 5), (exParams2, 7)] "chat-a"
    (List.cons_ne_nil _ _) (by decide)

/-! ## Claim C3 -/

/-- A truthiness-guarded WHERE condition holds iff the predicate holds
whenever the field is supplied and non-empty. -/
theorem truthyClause_iff (o : Option String) (P : String → Prop)
    [DecidablePred P] :
    ((match o with
      | some s => if s = "" then true else decide (P s)
      | none => true) = true) ↔ (∀ s, o = some s → s ≠ "" → P s) := by
  cases o with
  | none => simp
  | some s =>
      by_cases h : s = ""
      · subst h
        simp
      · simp [h]

/-- The built WHERE clause accepts a row iff each supplied, non-empty
predicate holds: `timestamp >= from`, `timestamp <= to`, exact
`conversation_jid` and `account_id` match. -/
theorem matchesFilter_iff (pd : String → Int) (f : ExportFilter)
    (m : MessageRow) :
    matchesFilter pd f m = true ↔
      ((∀ s, f.from_ = some s → s ≠ "" → pd s ≤ m.timestamp) ∧
       (∀ s, f.to_ = some s → s ≠ "" → m.timestamp ≤ pd s) ∧
       (∀ s, f.conversationJid = some s → s ≠ "" → m.conversation_jid = s) ∧
       (∀ s, f.accountId = some s → s ≠ "" → m.account_id = s)) := by
  unfold matchesFilter
  simp only [Bool.and_eq_true]
  rw [truthyClause_iff f.from_ (fun s => pd s ≤ m.timestamp),
    truthyClause_iff f.to_ (fun s => m.timestamp ≤ pd s),
    truthyClause_iff f.conversationJid (fun s => m.conversation_jid = s),
    truthyClause_iff f.accountId (fun s => m.account_id = s)]
  tauto

/-- The filtered query is sorted by timestamp ascending, limit or not. -/
theorem queryMessagesDB_sorted (pd : String → Int) (db : DBState)
    (f : ExportFilter) :
    (queryMessagesDB pd db f).Pairwise
      (fun a b => a.timestamp ≤ b.timestamp) := by
  have htrans : ∀ a b c : MessageRow, tsLE a b → tsLE b c → tsLE a c := by
    intro a b c hab hbc
    simp only [tsLE, decide_eq_true_eq] at hab hbc ⊢
    exact le_trans hab hbc
  have htotal : ∀ a b : MessageRow, tsLE a b || tsLE b a := by
    intro a b
    simp only [tsLE, Bool.or_eq_true, decide_eq_true_eq]
    exact le_total a.timestamp b.timestamp
  have hs := List.sorted_mergeSort htrans htotal
    (db.messages.filter (matchesFilter pd f))
  have hs2 : ((db.messages.filter (matchesFilter pd f)).mergeSort tsLE).Pairwise
      (fun a b : MessageRow => a.timestamp ≤ b.timestamp) :=
    hs.imp (fun h => by simpa [tsLE] using h)
  rcases hl : f.limit with _ | n
  · unfold queryMessagesDB
    rw [hl]
    exact hs2
  · unfold queryMessagesDB
    rw [hl]
    simp only [applyLimit]
    by_cases hn : n ≤ 0
    · rw [if_pos hn]
      exact hs2
    · rw [if_neg hn]
      exact List.Pairwise.sublist (List.take_sublist _ _) hs2

/-- Claim C3 (amended): the query result is sorted by timestamp ascending;
without an effective limit it is exactly (as a multiset) the rows satisfying
the conjunction of the supplied truthy predicates, each predicate as the
claim states it; a positive limit takes from the head of the ascending
result, returning at most that many rows; a zero or negative limit (JS-falsy
zero, sqlite negative LIMIT) imposes no bound. -/
theorem claim3_query_filter_sort_limit (pd : String → Int) (db : DBState)
    (f : ExportFilter) :
    (queryMessagesDB pd db f).Pairwise
      (fun a b => a.timestamp ≤ b.timestamp) ∧
    List.Perm (queryMessagesDB pd db { f with limit := none })
      (db.messages.filter (matchesFilter pd f)) ∧
    (∀ m, matchesFilter pd f m = true ↔
      ((∀ s, f.from_ = some s → s ≠ "" → pd s ≤ m.timestamp) ∧
       (∀ s, f.to_ = some s → s ≠ "" → m.timestamp ≤ pd s) ∧
       (∀ s, f.conversationJid = some s → s ≠ "" → m.conversation_jid = s) ∧
       (∀ s, f.accountId = some s → s ≠ "" → m.account_id = s))) ∧
    (∀ n, f.limit = some n → 0 < n →
      queryMessagesDB pd db f =
        (queryMessagesDB pd db { f with limit := none }).take n.toNat) ∧
    (∀ n, f.limit = some n → 0 < n →
      (queryMessagesDB pd db f).length ≤ n.toNat) ∧
    (∀ n, f.limit = some n → n ≤ 0 →
      queryMessagesDB pd db f = queryMessagesDB pd db { f with limit := none }) := by
  have htake : ∀ n, f.limit = some n → 0 < n →
      queryMessagesDB pd db f =
        (queryMessagesDB pd db { f with limit := none }).take n.toNat := by
    intro n hl hn
    unfold queryMessagesDB
    rw [hl]
    simp only [applyLimit]
    rw [if_neg (by omega),
      show matchesFilter pd { f with limit := none } = matchesFilter pd f from rfl]
  refine ⟨queryMessagesDB_sorted pd db f, ?_, matchesFilter_iff pd f, htake, ?_, ?_⟩
  · exact List.mergeSort_perm _ _
  · intro n hl hn
    rw [htake n hl hn]
    exact List.length_take_le _ _
  · intro n hl hn
    unfold queryMessagesDB
    rw [hl]
    simp only [applyLimit]
    rw [if_pos hn,
      show matchesFilter pd { f with limit := none } = matchesFilter pd f from rfl]

/-- On the one-message store, a query whose WHERE clause accepts the row
returns that single row, up to the LIMIT clause. -/
theorem queryMessagesDB_single_store (pd : String → Int)
    (p : StoreMessageParams) (now : Int) (f : ExportFilter)
    (h : matchesFilter pd f (mkMessageRow p now) = true) :
    queryMessagesDB pd (storeMessageDB emptyDB p now) f =
      applyLimit f.limit [mkMessageRow p now] := by
  unfold queryMessagesDB
  rw [show (storeMessageDB emptyDB p now).messages = [mkMessageRow p now] from rfl]
  simp [h]

/-- Counterexample to C3 as stated: on a store holding one message (in
conversation `"chat-a"`), supplying `limit = 0` returns 1 row, not at most 0;
and supplying `conversationJid = ""` returns a row whose `conversation_jid`
is not `""` (the falsy predicate is dropped, not applied). -/
theorem claim3_counterexample :
    ((queryMessagesDB (fun _ => 0) (storeMessageDB emptyDB exParams1 5)
        { limit := some 0 }).length = 1 ∧
      ¬ ((queryMessagesDB (fun _ => 0) (storeMessageDB emptyDB exParams1 5)
        { limit := some 0 }).length ≤ 0)) ∧
    (queryMessagesDB (fun _ => 0) (storeMessageDB emptyDB exParams1 5)
        { conversationJid := some "" } = [mkMessageRow exParams1 5] ∧
      (mkMessageRow exParams1 5).conversation_jid ≠ "") := by
  have h1 := queryMessagesDB_single_store (fun _ => 0) exParams1 5
    { limit := some 0 } (by decide)
  have h2 := queryMessagesDB_single_store (fun _ => 0) exParams1 5
    { conversationJid := some "" } (by decide)
  refine ⟨⟨?_, ?_⟩, ?_, ?_⟩
  · rw [h1]
    rfl
  · rw [h1]
    decide
  · rw [h2]
    rfl
  · decide

/-- Witness for C3 (amended) at concrete limits 1 and -1 on the one-message
store. -/
theorem claim3_query_filter_sort_limit_witness :
    (queryMessagesDB (fun _ => 0) (storeMessageDB emptyDB exParams1 5)
        { limit := some 1 } =
      (queryMessagesDB (fun _ => 0) (storeMessageDB emptyDB exParams1 5)
          { ({ limit := some 1 } : ExportFilter) with limit := none }).take
        (Int.toNat 1)) ∧
    ((queryMessagesDB (fun _ => 0) (storeMessageDB emptyDB exParams1 5)
        { limit := some 1 }).length ≤ Int.toNat 1) ∧
    (queryMessagesDB (fun _ => 0) (storeMessageDB emptyDB exParams1 5)
        { limit := some (-1) } =
      queryMessagesDB (fun _ => 0) (storeMessageDB emptyDB exParams1 5)
        { ({ limit := some (-1) } : ExportFilter) with limit := none }) :=
  ⟨(claim3_query_filter_sort_limit (fun _ => 0) (storeMessageDB emptyDB exParams1 5)
      { limit := some 1 }).2.2.2.1 1 rfl (by decide),
    (claim3_query_filter_sort_limit (fun _ => 0) (storeMessageDB emptyDB exParams1 5)
      { limit := some 1 }).2.2.2.2.1 1 rfl (by decide),
    (claim3_query_filter_sort_limit (fun _ => 0) (storeMessageDB emptyDB exParams1 5)
      { limit := some (-1) }).2.2.2.2.2 (-1) rfl (by decide)⟩

/-! ## Claim C4 -/

/-- Insert a key into the first-seen order (no-op when already seen), the
behaviour of `Map.set` on first encounter. -/
def insFS (acc : List String) (j : String) : List String :=
  if j ∈ acc then acc else acc ++ [j]

/-- The conversation jids of a message stream in first-appearance order
(JS `Map` insertion order). -/
def firstSeen (l : List String) : List String := l.foldl insFS []

/-- Membership in the running first-seen fold. -/
theorem mem_foldl_insFS (l : List String) (acc : List String) (a : String) :
    a ∈ l.foldl insFS acc ↔ a ∈ acc ∨ a ∈ l := by
  induction l generalizing acc with
  | nil => simp
  | cons b t ih =>
      rw [List.foldl_cons, ih]
      unfold insFS
      by_cases hb : b ∈ acc
      · rw [if_pos hb]
        simp only [List.mem_cons]
        constructor
        · rintro (h | h)
          · exact Or.inl h
          · exact Or.inr (Or.inr h)
        · rintro (h | rfl | h)
          · exact Or.inl h
          · exact Or.inl hb
          · exact Or.inr h
      · rw [if_neg hb]
        simp only [List.mem_append, List.mem_singleton, List.mem_cons]
        tauto

/-- Function `firstSeen` keeps exactly the elements of the stream. -/
theorem mem_firstSeen (l : List String) (a : String) :
    a ∈ firstSeen l ↔ a ∈ l := by
  unfold firstSeen
  rw [mem_foldl_insFS]
  simp

/-- Function `firstSeen` over an extended stream. -/
theorem firstSeen_append_single (l : List String) (j : String) :
    firstSeen (l ++ [j]) = insFS (firstSeen l) j := by
  unfold firstSeen
  rw [List.foldl_append]
  rfl

/-- The group that `exportMessages` assembles for one conversation out of a
message stream: metadata from the lazy conversation lookup, messages from the
stream in order. -/
def groupFor (convs : List ConversationRow) (msgs : List MessageRow)
    (j : String) : ExportedConversation :=
  { jid := j
    chatType :=
      match convs.find? (fun c => c.jid == j) with
      | some c => c.chat_type
      | none => ChatType.direct
    displayName :=
      match convs.find? (fun c => c.jid == j) with
      | some c => c.display_name
      | none => none
    messages := (msgs.filter (fun m => m.conversation_jid == j)).map exportedMsgOf }

/-- The grouping of a message stream: one group per conversation in
first-appearance order. -/
def groupSpec (convs : List ConversationRow) (msgs : List MessageRow) :
    List ExportedConversation :=
  (firstSeen (msgs.map (fun m => m.conversation_jid))).map (groupFor convs msgs)

/-- The jids of the grouping are the first-seen conversation order. -/
theorem groupSpec_map_jid (convs : List ConversationRow) (msgs : List MessageRow) :
    (groupSpec convs msgs).map (fun g => g.jid) =
      firstSeen (msgs.map (fun m => m.conversation_jid)) := by
  unfold groupSpec
  rw [List.map_map]
  have h : (fun g => ExportedConversation.jid g) ∘ groupFor convs msgs = id := by
    funext j
    rfl
  rw [h, List.map_id]

/-- The `Map.get` hit test of the grouping loop, as membership of the jid. -/
theorem any_jid_eq (gs : List ExportedConversation) (x : String) :
    gs.any (fun g => g.jid == x) = true ↔ x ∈ gs.map (fun g => g.jid) := by
  simp [List.any_eq_true, List.mem_map, beq_iff_eq]

/-- One step of the grouping loop extends the grouping of the processed
prefix to the grouping of the prefix plus the new message. -/
theorem addGroup_groupSpec (convs : List ConversationRow) (msgs : List MessageRow)
    (m : MessageRow) :
    addGroup convs (groupSpec convs msgs) m = groupSpec convs (msgs ++ [m]) := by
  unfold addGroup
  by_cases hmem : m.conversation_jid ∈ firstSeen (msgs.map (fun x => x.conversation_jid))
  · have hany : (groupSpec convs msgs).any (fun g => g.jid == m.conversation_jid) = true := by
      rw [any_jid_eq, groupSpec_map_jid]
      exact hmem
    rw [if_pos hany]
    conv_rhs => unfold groupSpec
    simp only [List.map_append, List.map_cons, List.map_nil]
    rw [firstSeen_append_single]
    unfold insFS
    rw [if_pos hmem]
    conv_lhs => unfold groupSpec
    rw [List.map_map]
    apply List.map_congr_left
    intro j hj
    by_cases hjm : j = m.conversation_jid
    · have hcond : ((groupFor convs msgs j).jid == m.conversation_jid) = true := by
        simp [groupFor, hjm]
      simp only [Function.comp_apply, hcond, if_true]
      have hfm : (m.conversation_jid == j) = true := by simp [hjm]
      simp [groupFor, List.filter_append, List.filter_cons, hfm]
    · have hcond : ((groupFor convs msgs j).jid == m.conversation_jid) = false := by
        simp [groupFor, hjm]
      simp only [Function.comp_apply, hcond, Bool.false_eq_true, if_false]
      have hfm : (m.conversation_jid == j) = false :=
        beq_eq_false_iff_ne.mpr (fun h => hjm h.symm)
      simp [groupFor, List.filter_append, List.filter_cons, hfm]
  · have hany : ¬((groupSpec convs msgs).any (fun g => g.jid == m.conversation_jid) = true) := by
      rw [any_jid_eq, groupSpec_map_jid]
      exact hmem
    rw [if_neg hany]
    conv_rhs => unfold groupSpec
    simp only [List.map_append, List.map_cons, List.map_nil]
    rw [firstSeen_append_single]
    unfold insFS
    rw [if_neg hmem, List.map_append]
    congr 1
    · conv_lhs => unfold groupSpec
      apply List.map_congr_left
      intro j hj
      have hjm : j ≠ m.conversation_jid := fun h => hmem (h ▸ hj)
      have hfm : (m.conversation_jid == j) = false :=
        beq_eq_false_iff_ne.mpr (fun h => hjm h.symm)
      simp [groupFor, List.filter_append, List.filter_cons, hfm]
    · have hnil : msgs.filter (fun x => x.conversation_jid == m.conversation_jid) = [] := by
        rw [List.filter_eq_nil_iff]
        intro a ha hcon
        exact hmem ((mem_firstSeen _ _).mpr
          (List.mem_map.mpr ⟨a, ha, beq_iff_eq.mp hcon⟩))
      simp [groupFor, List.filter_append, List.filter_cons, hnil]

/-- The whole grouping loop computes `groupSpec`. -/
theorem foldl_addGroup_eq_groupSpec (convs : List ConversationRow)
    (msgs : List MessageRow) :
    msgs.foldl (addGroup convs) [] = groupSpec convs msgs := by
  induction msgs using List.reverseRecOn with
  | nil => rfl
  | append_singleton t m ih =>
      rw [List.foldl_append, List.foldl_cons, List.foldl_nil, ih]
      exact addGroup_groupSpec convs t m

/-- Function `exportMessagesDB` is the grouping of the filtered query stream. -/
theorem exportMessagesDB_eq_groupSpec (pd : String → Int) (db : DBState)
    (f : ExportFilter) :
    exportMessagesDB pd db f = groupSpec db.conversations (queryMessagesDB pd db f) := by
  unfold exportMessagesDB
  exact foldl_addGroup_eq_groupSpec db.conversations (queryMessagesDB pd db f)

/-- Claim C4: export groups are ordered by first appearance of their
conversation in the timestamp-ascending filtered stream; each group carries
exactly that conversation's messages from the stream, in ascending timestamp
order; chat kind and display name come from the conversations table, with
`direct` / null defaults when no conversation row exists. -/
theorem claim4_export_grouping (pd : String → Int) (db : DBState)
    (f : ExportFilter) :
    (exportMessagesDB pd db f).map (fun g => g.jid) =
      firstSeen ((queryMessagesDB pd db f).map (fun m => m.conversation_jid)) ∧
    ∀ g ∈ exportMessagesDB pd db f,
      g.messages =
        ((queryMessagesDB pd db f).filter
          (fun m => m.conversation_jid == g.jid)).map exportedMsgOf ∧
      g.messages.Pairwise (fun a b => a.timestamp ≤ b.timestamp) ∧
      g.chatType = (match db.conversations.find? (fun c => c.jid == g.jid) with
        | some c => c.chat_type
        | none => ChatType.direct) ∧
      g.displayName = (match db.conversations.find? (fun c => c.jid == g.jid) with
        | some c => c.display_name
        | none => none) := by
  constructor
  · rw [exportMessagesDB_eq_groupSpec]
    exact groupSpec_map_jid db.conversations (queryMessagesDB pd db f)
  · intro g hg
    rw [exportMessagesDB_eq_groupSpec] at hg
    obtain ⟨j, hj, rfl⟩ := List.mem_map.mp hg
    refine ⟨rfl, ?_, rfl, rfl⟩
    have hq := queryMessagesDB_sorted pd db f
    have hf : ((queryMessagesDB pd db f).filter
        (fun m => m.conversation_jid == j)).Pairwise
        (fun a b : MessageRow => a.timestamp ≤ b.timestamp) :=
      List.Pairwise.sublist (List.filter_sublist _) hq
    show (((queryMessagesDB pd db f).filter
        (fun m => m.conversation_jid == j)).map exportedMsgOf).Pairwise _
    rw [List.pairwise_map]
    exact hf

/-- The single export group of the one-message store. -/
def exGroupA : ExportedConversation :=
  groupFor (storeMessageDB emptyDB exParams1 5).conversations
    [mkMessageRow exParams1 5] "chat-a"

/-- Witness for C4 on the one-message store: its only group satisfies all
per-group properties. -/
theorem claim4_export_grouping_witness :
    exGroupA.messages =
      ((queryMessagesDB (fun _ => 0) (storeMessageDB emptyDB exParams1 5) {}).filter
        (fun m => m.conversation_jid == exGroupA.jid)).map exportedMsgOf ∧
    exGroupA.messages.Pairwise (fun a b => a.timestamp ≤ b.timestamp) ∧
    exGroupA.chatType =
      (match (storeMessageDB emptyDB exParams1 5).conversations.find?
          (fun c => c.jid == exGroupA.jid) with
        | some c => c.chat_type
        | none => ChatType.direct) ∧
    exGroupA.displayName =
      (match (storeMessageDB emptyDB exParams1 5).conversations.find?
          (fun c => c.jid == exGroupA.jid) with
        | some c => c.display_name
        | none => none) := by
  have hq : queryMessagesDB (fun _ => 0) (storeMessageDB emptyDB exParams1 5) {} =
      [mkMessageRow exParams1 5] := by
    rw [queryMessagesDB_single_store (fun _ => 0) exParams1 5 {} (by decide)]
    rfl
  have hg : exGroupA ∈
      exportMessagesDB (fun _ => 0) (storeMessageDB emptyDB exParams1 5) {} := by
    rw [exportMessagesDB_eq_groupSpec, hq]
    exact List.mem_singleton_self _
  exact (claim4_export_grouping (fun _ => 0) (storeMessageDB emptyDB exParams1 5) {}).2
    exGroupA hg
